import Mathlib

/-!
Verification development for the notion-shopping-list-cleanup repository.

JavaScript strings are embedded as lists of characters (`Str`); JavaScript
runtime primitives used by the code (`String.prototype.trim`, `split`,
`startsWith`, `JSON.parse`) are modelled as executable Lean functions on
`Str`.  Each definition below is translated from the TypeScript source file
named in its doc comment.
-/

/-- Shallow embedding of a JavaScript string as a list of characters. -/
abbrev Str := List Char

/-- Whitespace predicate used by the JavaScript runtime for `trim` and by
the `\s` regex class (modelled for the ASCII whitespace the code meets). -/
def isWs (c : Char) : Bool :=
  c = ' ' || c = '\t' || c = '\n' || c = '\r'

/-- Model of `String.prototype.trimStart`. -/
def trimStart (s : Str) : Str := s.dropWhile isWs

/-- Model of `String.prototype.trimEnd`. -/
def trimEnd (s : Str) : Str := (s.reverse.dropWhile isWs).reverse

/-- Model of `String.prototype.trim`. -/
def trimStr (s : Str) : Str := trimEnd (trimStart s)

/-- Model of `String.prototype.startsWith`. -/
def strStartsWith : Str → Str → Bool
  | _, [] => true
  | [], _ :: _ => false
  | c :: cs, p :: ps => c = p && strStartsWith cs ps

/-- Model of `String.prototype.endsWith`. -/
def strEndsWith (s pat : Str) : Bool :=
  strStartsWith s.reverse pat.reverse

/-- Drop the last `n` characters of a string. -/
def strDropRight (n : Nat) (s : Str) : Str :=
  (s.reverse.drop n).reverse

/-- Model of `String.prototype.split(",")`: splits at every comma,
never returns an empty list. -/
def splitComma : Str → List Str
  | [] => [[]]
  | c :: rest =>
    if c = ',' then [] :: splitComma rest
    else
      match splitComma rest with
      | [] => [[c]]
      | s :: ss => (c :: s) :: ss

/-- Source `src/utils/parsing.ts`: a multi-select choice tag
`(\x7b name \x7d)` produced by `parseMultiSelect`. -/
structure Choice where
  name : Str
deriving DecidableEq, Repr

/-- Source `src/utils/parsing.ts` lines 1-6:
`text.split(",").map(t => t.trim()).filter(Boolean).map(name => (\x7b name \x7d))`. -/
def parseMultiSelect (text : Str) : List Choice :=
  (((splitComma text).map trimStr).filter (fun t => t ≠ [])).map
    (fun name => ⟨name⟩)

/-!
Model of the JavaScript `JSON.parse` used by `src/utils/ai.ts`.  JSON values
are decoded into the `Json` inductive; numbers are kept as their validated
lexeme (the code never inspects numeric magnitudes, only the `typeof` of a
decoded value).  The parser is a fuel-indexed recursive-descent parser over
`Str` following the JSON grammar; `jsonParse` returns `none` exactly when
`JSON.parse` would throw a `SyntaxError`.
-/

/-- Decoded JSON value as produced by `JSON.parse`. -/
inductive Json where
  | null : Json
  | bool (b : Bool) : Json
  | num (lexeme : Str) : Json
  | str (s : Str) : Json
  | arr (elems : List Json) : Json
  | obj (fields : List (Str × Json)) : Json

/-- JSON whitespace. -/
def isJsonWs (c : Char) : Bool :=
  c = ' ' || c = '\t' || c = '\n' || c = '\r'

/-- Skip JSON whitespace. -/
def skipWs (s : Str) : Str := s.dropWhile isJsonWs

/-- Hex digit value, if any. -/
def hexVal (c : Char) : Option Nat :=
  if '0' ≤ c ∧ c ≤ '9' then some (c.toNat - '0'.toNat)
  else if 'a' ≤ c ∧ c ≤ 'f' then some (c.toNat - 'a'.toNat + 10)
  else if 'A' ≤ c ∧ c ≤ 'F' then some (c.toNat - 'A'.toNat + 10)
  else none

/-- Decode a simple JSON string escape character. -/
def escChar (c : Char) : Option Char :=
  if c = '"' then some '"'
  else if c = '\\' then some '\\'
  else if c = '/' then some '/'
  else if c = 'b' then some (Char.ofNat 8)
  else if c = 'f' then some (Char.ofNat 12)
  else if c = 'n' then some '\n'
  else if c = 'r' then some '\r'
  else if c = 't' then some '\t'
  else none

/-- Parse the body of a JSON string after the opening quote; returns the
decoded content and the rest of the input after the closing quote. -/
def pString : Str → Option (Str × Str)
  | '"' :: rest => some ([], rest)
  | '\\' :: 'u' :: a :: b :: c :: d :: rest => do
    let ha ← hexVal a
    let hb ← hexVal b
    let hc ← hexVal c
    let hd ← hexVal d
    let (s, r) ← pString rest
    some (Char.ofNat (((ha * 16 + hb) * 16 + hc) * 16 + hd) :: s, r)
  | '\\' :: e :: rest => do
    let c ← escChar e
    let (s, r) ← pString rest
    some (c :: s, r)
  | c :: rest =>
    if c.toNat < 32 then none
    else (pString rest).map (fun p => (c :: p.1, p.2))
  | [] => none

/-- Digit predicate. -/
def isDigit (c : Char) : Bool := '0' ≤ c && c ≤ '9'

/-- Parse the digit run at the front. -/
def takeDigits (s : Str) : Str × Str :=
  (s.takeWhile isDigit, s.dropWhile isDigit)

/-- Parse a JSON number lexeme (sign, integer part, optional fraction and
exponent); returns the lexeme and the rest. -/
def pNum (s : Str) : Option (Str × Str) :=
  let (sign, s₁) :=
    match s with
    | '-' :: r => (['-'], r)
    | _ => (([] : Str), s)
  -- integer part: 0, or nonzero digit followed by digits
  match s₁ with
  | [] => none
  | c :: r =>
    if c = '0' then
      let (frac, s₂) := pFracExp r
      match frac with
      | some fr => some (sign ++ ['0'] ++ fr, s₂)
      | none => none
    else if isDigit c then
      let (ds, r₂) := takeDigits r
      let (frac, s₂) := pFracExp r₂
      match frac with
      | some fr => some (sign ++ (c :: ds) ++ fr, s₂)
      | none => none
    else none
where
  /-- Parse optional fraction and exponent; `none` marks a malformed tail. -/
  pFracExp (s : Str) : Option Str × Str :=
    let (fr, s₁) :=
      match s with
      | '.' :: r =>
        match takeDigits r with
        | ([], _) => ((none : Option Str), s)
        | (ds, r₂) => (some ('.' :: ds), r₂)
      | _ => (some [], s)
    match fr with
    | none => (none, s)
    | some fr₁ =>
      match s₁ with
      | 'e' :: r | 'E' :: r =>
        let (sgn, r₁) :=
          match r with
          | '+' :: r₂ => (['+'], r₂)
          | '-' :: r₂ => (['-'], r₂)
          | _ => (([] : Str), r)
        match takeDigits r₁ with
        | ([], _) => ((none : Option Str), s)
        | (ds, r₂) => (some (fr₁ ++ 'e' :: sgn ++ ds), r₂)
      | _ => (some fr₁, s₁)

mutual

/-- Parse one JSON value at the front of the input (no leading whitespace). -/
def pVal : Nat → Str → Option (Json × Str)
  | 0, _ => none
  | Nat.succ f, s =>
    match s with
    | [] => none
    | '"' :: rest => (pString rest).map (fun p => (Json.str p.1, p.2))
    | '\x7b' :: rest =>
      match skipWs rest with
      | '\x7d' :: r => some (Json.obj [], r)
      | r => (pMembers f r).map (fun p => (Json.obj p.1, p.2))
    | '[' :: rest =>
      match skipWs rest with
      | ']' :: r => some (Json.arr [], r)
      | r => (pItems f r).map (fun p => (Json.arr p.1, p.2))
    | c :: _ =>
      if c = 'n' then
        if strStartsWith s ("null".data) then some (Json.null, s.drop 4) else none
      else if c = 't' then
        if strStartsWith s ("true".data) then some (Json.bool true, s.drop 4) else none
      else if c = 'f' then
        if strStartsWith s ("false".data) then some (Json.bool false, s.drop 5) else none
      else if c = '-' || isDigit c then
        (pNum s).map (fun p => (Json.num p.1, p.2))
      else none

/-- Parse the comma-separated elements of a JSON array and the closing
bracket. -/
def pItems : Nat → Str → Option (List Json × Str)
  | 0, _ => none
  | Nat.succ f, s => do
    let (v, s₁) ← pVal f s
    match skipWs s₁ with
    | ',' :: s₂ => (pItems f (skipWs s₂)).map (fun p => (v :: p.1, p.2))
    | ']' :: s₂ => some ([v], s₂)
    | _ => none

/-- Parse the comma-separated members of a JSON object and the closing
brace. -/
def pMembers : Nat → Str → Option (List (Str × Json) × Str)
  | 0, _ => none
  | Nat.succ f, s =>
    match s with
    | '"' :: rest => do
      let (k, s₁) ← pString rest
      match skipWs s₁ with
      | ':' :: s₂ => do
        let (v, s₃) ← pVal f (skipWs s₂)
        match skipWs s₃ with
        | ',' :: s₄ =>
          (pMembers f (skipWs s₄)).map (fun p => ((k, v) :: p.1, p.2))
        | '\x7d' :: s₄ => some ([(k, v)], s₄)
        | _ => none
      | _ => none
    | _ => none

end

/-- Model of `JSON.parse`: parse a complete JSON document (whitespace
allowed around it); `none` models a thrown `SyntaxError`. -/
def jsonParse (s : Str) : Option Json :=
  match pVal (2 * s.length + 2) (skipWs s) with
  | some (v, rest) => if skipWs rest = [] then some v else none
  | none => none

/-!
Model of `src/utils/notion.ts` and `src/utils/parsing.ts`.  Notion
properties are modelled with the five shapes the code inspects plus a
catch-all `other` for every further property type of the SDK union (the
code's `isEmpty` falls through to `return true` for those).  JavaScript
numbers are embedded as `Int` (the code never computes with them).
-/

/-- Response-side Notion property value (`NotionPropertyResponse`). -/
inductive NotionProperty where
  | number (n : Option Int) : NotionProperty
  | rich_text (spans : List Str) : NotionProperty
  | select (s : Option Str) : NotionProperty
  | multi_select (tags : List Str) : NotionProperty
  | title (spans : List Str) : NotionProperty
  | other : NotionProperty
deriving DecidableEq, Repr

/-- Request-side Notion property update (`NotionPropertyRequest`). -/
inductive NotionPropertyRequest where
  | rich_text (spans : List Str) : NotionPropertyRequest
  | select (name : Str) : NotionPropertyRequest
  | multi_select (tags : List Choice) : NotionPropertyRequest
  | number (n : Int) : NotionPropertyRequest
deriving DecidableEq, Repr

/-- Source `src/utils/parsing.ts` line 9: `richText` property builder. -/
def propertyBuilders.richText (value : Str) : NotionPropertyRequest :=
  .rich_text [value]

/-- Source `src/utils/parsing.ts` line 10: `select` property builder. -/
def propertyBuilders.select (value : Str) : NotionPropertyRequest :=
  .select value

/-- Source `src/utils/parsing.ts` line 11: `multiSelect` property builder. -/
def propertyBuilders.multiSelect (value : Str) : NotionPropertyRequest :=
  .multi_select (parseMultiSelect value)

/-- Source `src/utils/parsing.ts` line 12: `number` property builder. -/
def propertyBuilders.number (value : Int) : NotionPropertyRequest :=
  .number value

/-- A Notion page as the code sees it: an id and, when the `"properties"`
key is present on the object, a field map (modelled as an association list
with distinct keys). -/
structure Page where
  id : Str
  properties : Option (List (Str × NotionProperty))
deriving DecidableEq, Repr

/-- JavaScript property access `props[name]` on the field map. -/
def lookupProp : List (Str × NotionProperty) → Str → Option NotionProperty
  | [], _ => none
  | (k, v) :: rest, name => if k = name then some v else lookupProp rest name

/-- Source `src/utils/notion.ts` lines 92-112 (`isEmpty`): `undefined`
(absent) is empty, each known shape has its kind-specific rule, any other
property type falls through to `true`. -/
def isEmpty (property : Option NotionProperty) : Bool :=
  match property with
  | none => true
  | some (.number n) => n.isNone
  | some (.rich_text spans) => spans.length == 0
  | some (.select s) => s.isNone
  | some (.multi_select tags) => tags.length == 0
  | some (.title spans) => spans.length == 0
  | some .other => true

/-- Source `src/utils/notion.ts` lines 114-123 (`extractTitle`). -/
def extractTitle (page : Page) (fallback : Str := ("Unnamed".data)) : Str :=
  match page.properties with
  | none => fallback
  | some props =>
    match lookupProp props ("Name".data) with
    | some (.title (s :: _)) => s
    | some (.title []) => fallback
    | _ => fallback

/-- Source `src/utils/notion.ts` lines 125-135 (`hasEmptyProperties`):
pages without a `"properties"` key short-circuit to `false`; otherwise
`propertyNames.some(name => isEmpty(page.properties[name]))`. -/
def hasEmptyProperties (page : Page) (propertyNames : List Str) : Bool :=
  match page.properties with
  | none => false
  | some props => propertyNames.any (fun name => isEmpty (lookupProp props name))

/-- JavaScript object assignment `updates[k] = v` on an object modelled as
an association list: overwrite in place when the key exists, else append. -/
def upsert (l : List (Str × NotionPropertyRequest)) (k : Str)
    (v : NotionPropertyRequest) : List (Str × NotionPropertyRequest) :=
  if l.any (fun p => p.1 = k) then
    l.map (fun p => if p.1 = k then (k, v) else p)
  else l ++ [(k, v)]

/-- One step of the `reduce` in `buildPropertyUpdates`: look the result
value up under the mapping's data key, and when it is non-null and the
target property is currently empty, assign the built property. -/
def applyMapping {V : Type} (props : List (Str × NotionProperty))
    (data : Str → Option V) (updates : List (Str × NotionPropertyRequest))
    (m : Str × Str × (V → NotionPropertyRequest)) :
    List (Str × NotionPropertyRequest) :=
  match data m.2.1 with
  | some value =>
    if isEmpty (lookupProp props m.1) then
      upsert updates m.1 (m.2.2 value)
    else updates
  | none => updates

/-- Source `src/utils/notion.ts` lines 137-153 (`buildPropertyUpdates`).
The annotation result `data` is modelled as a partial map from result keys
to values of an abstract type `V` (`none` models `null`/`undefined`), and
each field mapping carries its codec `V → NotionPropertyRequest`. -/
def buildPropertyUpdates {V : Type} (page : Page) (data : Str → Option V)
    (fieldMappings : List (Str × Str × (V → NotionPropertyRequest))) :
    List (Str × NotionPropertyRequest) :=
  match page.properties with
  | none => []
  | some props => fieldMappings.foldl (applyMapping props data) []

/-!
Model of `src/utils/notion.ts` lines 38-69 (`getAllPages`).  The remote
database is dependency-injected as a function from the query request the
code sends (cursor and page size taken from the JSON body) to the
endpoint's reply; an `Except.error` reply models a non-2xx HTTP status.
-/

/-- Body of one `databases/.../query` request. -/
structure QueryRequest where
  start_cursor : Option Str
  page_size : Option Nat
deriving DecidableEq, Repr

/-- One page of a `databases/.../query` reply
(`results` / `has_more` / `next_cursor`). -/
structure QueryResponsePage where
  results : List Page
  has_more : Bool
  next_cursor : Option Str
deriving DecidableEq, Repr

/-- The remote database endpoint. -/
def Remote := QueryRequest → Except Str QueryResponsePage

/-- Source `src/utils/notion.ts` lines 38-69 (`getAllPages`): one fetch
with body `JSON.stringify(\x7b\x7d)` — no cursor and no page size — then
either the thrown query error, or `data.results` of that single reply
(`has_more` and `next_cursor` are never read). -/
def getAllPages (remote : Remote) : Except Str (List Page) :=
  match remote ⟨none, none⟩ with
  | .error msg => .error (("Failed to query database: ".data) ++ msg)
  | .ok data => .ok data.results

/-- Record source contract of spec §4.1 (and of the duplicate paginating
implementation of `getAllPages` shipped in the repository): follow
`next_cursor` while `has_more`, requesting page size 100, and concatenate
the `results` of every page in order.  Fuel bounds the loop. -/
def getAllPagesPaginated (remote : Remote) :
    Nat → Option Str → Except Str (List Page)
  | 0, _ => .error ("out of fuel".data)
  | Nat.succ fuel, cursor =>
    match remote ⟨cursor, some 100⟩ with
    | .error msg => .error (("Failed to query database: ".data) ++ msg)
    | .ok data =>
      if data.has_more then
        match getAllPagesPaginated remote fuel data.next_cursor with
        | .error msg => .error msg
        | .ok rest => .ok (data.results ++ rest)
      else .ok data.results

/-!
Model of `src/utils/ai.ts` (`batchAnnotate`, lines 75-159): the response
cleaning and JSON-parsing stage, and the per-record update loop.  The
loop's observable behaviour — warnings, skip log lines and page writes —
is reified as a list of `Effect`s in program order.
-/

/-- Model of `.replace(/\s*` ``` `$/, "")`: when the text ends with a code
fence, remove it together with the maximal whitespace run before it. -/
def stripEndFence (s : Str) : Str :=
  if strEndsWith s ("```".data) then trimEnd (strDropRight 3 s) else s

/-- Source `src/utils/ai.ts` lines 110-120: trim the raw text, throw on
empty, then strip a leading ` ```json ` or ` ``` ` fence (with the
whitespace after it) and a trailing fence. -/
def cleanResponseText (raw : Str) : Except Str Str :=
  let cleaned := trimStr raw
  if cleaned.isEmpty then .error ("AI returned an empty response".data)
  else if strStartsWith cleaned ("```json".data) then
    .ok (stripEndFence ((cleaned.drop 7).dropWhile isWs))
  else if strStartsWith cleaned ("```".data) then
    .ok (stripEndFence ((cleaned.drop 3).dropWhile isWs))
  else .ok cleaned

/-- Source `src/utils/ai.ts` lines 108-132: the whole parse stage.  Every
failure inside the `try` (empty response, `JSON.parse` throwing) is caught
and rethrown as the one fatal error. -/
def parseAIResponse (raw : Str) : Except Str Json :=
  match cleanResponseText raw with
  | .error _ => .error ("AI did not return valid JSON".data)
  | .ok s =>
    match jsonParse s with
    | some j => .ok j
    | none => .error ("AI did not return valid JSON".data)

/-- Observable actions of the per-record loop of `batchAnnotate`. -/
inductive Effect where
  | warnMismatch (expected got : Nat) : Effect
  | noData (name : Str) : Effect
  | skipFilled (name : Str) : Effect
  | write (pageId : Str) (updates : List (Str × NotionPropertyRequest)) : Effect
deriving DecidableEq, Repr

/-- Source `src/utils/ai.ts` lines 140-158, one iteration at index `i`:
missing result → skip log; empty update set → skip log; else one write. -/
def recordOutcome {T : Type} (extractName : Page → Str)
    (buildUpdates : Page → T → List (Str × NotionPropertyRequest))
    (parsed : List T) (i : Nat) (page : Page) : Effect :=
  match parsed[i]? with
  | none => .noData (extractName page)
  | some d =>
    let updates := buildUpdates page d
    if updates.isEmpty then .skipFilled (extractName page)
    else .write page.id updates

/-- Source `src/utils/ai.ts` lines 140-159: the indexed `for` loop. -/
def annotateLoop {T : Type} (extractName : Page → Str)
    (buildUpdates : Page → T → List (Str × NotionPropertyRequest))
    (parsed : List T) : Nat → List Page → List Effect
  | _, [] => []
  | i, page :: rest =>
    recordOutcome extractName buildUpdates parsed i page ::
      annotateLoop extractName buildUpdates parsed (i + 1) rest

/-- Source `src/utils/ai.ts` lines 134-159: warn when the parsed array's
length differs from the page count, then run the loop over all pages. -/
def annotateEffects {T : Type} (pages : List Page) (extractName : Page → Str)
    (parsed : List T)
    (buildUpdates : Page → T → List (Str × NotionPropertyRequest)) :
    List Effect :=
  (if parsed.length ≠ pages.length then
    [Effect.warnMismatch pages.length parsed.length]
  else []) ++ annotateLoop extractName buildUpdates parsed 0 pages

/-!
Model of the two batch workflows,
`src/workflows/populate-travel-database/index.ts` and
`src/workflows/populate-walks-database/index.ts`: prompt building and
response shape validation.
-/

/-- Model of JavaScript `String.prototype.replace` with a plain string
pattern: replace the first occurrence only. -/
def replaceFirst : Str → Str → Str → Str
  | [], _, _ => []
  | c :: rest, pat, repl =>
    if strStartsWith (c :: rest) pat then repl ++ (c :: rest).drop pat.length
    else c :: replaceFirst rest pat repl

/-- Source `populate-travel-database/index.ts` line 46: the numbered list
`places.map((p, i) => i + 1 + ". " + p)` (template literal). -/
def placesList (places : List Str) : List Str :=
  places.enum.map (fun p => ((toString (p.1 + 1)).data) ++ (". ".data) ++ p.2)

/-- Source `populate-travel-database/index.ts` lines 41-48 (`buildPrompt`):
substitute the joined numbered list for the placeholder in the template
(the walks workflow builds its list identically). -/
def buildPrompt (template : Str) (places : List Str) : Str :=
  replaceFirst template ("\x7b\x7bPLACES_LIST\x7d\x7d".data)
    (List.intercalate ("\n".data) (placesList places))

/-- JavaScript property access on a decoded JSON value: a key lookup on an
object, `undefined` on everything else. -/
def jGet (j : Json) (key : Str) : Option Json :=
  match j with
  | .obj fields => lookupField fields key
  | _ => none
where
  /-- First-match association lookup. -/
  lookupField : List (Str × Json) → Str → Option Json
    | [], _ => none
    | (k, v) :: rest, key => if k = key then some v else lookupField rest key

/-- The `typeof p.key === "string"` test of the validators. -/
def isStrAt (j : Json) (key : Str) : Bool :=
  match jGet j key with
  | some (.str _) => true
  | _ => false

/-- The `typeof p.key === "number"` test of the validators. -/
def isNumAt (j : Json) (key : Str) : Bool :=
  match jGet j key with
  | some (.num _) => true
  | _ => false

/-- The `typeof x === "object" && x !== null` test (arrays pass). -/
def isObjLike : Json → Bool
  | .obj _ => true
  | .arr _ => true
  | _ => false

/-- Required string fields of one travel place. -/
def travelFields : List Str :=
  [("stayLength".data), ("bestSeason".data), ("knownFor".data),
    ("activities".data), ("flights".data), ("transportInfo".data)]

/-- Source `populate-travel-database/index.ts` lines 60-71: one element of
`places` must be a non-null non-array object with the six string fields. -/
def isTravelPlace (place : Json) : Bool :=
  match place with
  | .obj _ => travelFields.all (fun f => isStrAt place f)
  | _ => false

/-- Source `populate-travel-database/index.ts` lines 54-72
(`isValidTravelPlacesResponse`). -/
def isValidTravelPlacesResponse (j : Json) : Bool :=
  match j with
  | .obj _ =>
    match jGet j ("places".data) with
    | some (.arr places) => places.all isTravelPlace
    | _ => false
  | _ => false

/-- Source `populate-travel-database/index.ts` lines 78-84
(`parseResponse`): throw unless the shape validates, else return the
`places` array. -/
def parseTravelResponse (j : Json) : Except Str (List Json) :=
  if isValidTravelPlacesResponse j then
    match jGet j ("places".data) with
    | some (.arr places) => .ok places
    | _ => .error ("Response missing places array or invalid structure".data)
  else .error ("Response missing places array or invalid structure".data)

/-- Required string fields of one walk. -/
def walksStrFields : List Str :=
  [("transport".data), ("type".data), ("parking".data), ("routes".data),
    ("terrain".data), ("pubs".data)]

/-- Source `populate-walks-database/index.ts` lines 68-80: one element of
`walks` must be object-like with a number `distance` and six string
fields (this validator does not exclude arrays, but property access on an
array yields `undefined` so arrays fail the field tests). -/
def isWalk (walk : Json) : Bool :=
  isObjLike walk && isNumAt walk ("distance".data) &&
    walksStrFields.all (fun f => isStrAt walk f)

/-- Source `populate-walks-database/index.ts` lines 62-81
(`isValidWalksResponse`). -/
def isValidWalksResponse (j : Json) : Bool :=
  isObjLike j &&
    match jGet j ("walks".data) with
    | some (.arr walks) => walks.all isWalk
    | _ => false

/-- Source `populate-walks-database/index.ts` lines 83-88
(`parseResponse`). -/
def parseWalksResponse (j : Json) : Except Str (List Json) :=
  if isValidWalksResponse j then
    match jGet j ("walks".data) with
    | some (.arr walks) => .ok walks
    | _ => .error ("Response missing walks array or invalid structure".data)
  else .error ("Response missing walks array or invalid structure".data)

/-- Emptiness of a record field as the claims word it (empty text = no
spans, empty choice = unset, empty multi-choice = empty set, empty number
= null, absent field counts as empty).  Spec-side definition, to be
compared with the source-side `isEmpty`; the spec's rule speaks only of
the modelled kinds, so `other` is assigned `false` and the comparison
theorem restricts itself to records without `other` fields. -/
def specFieldEmpty : Option NotionProperty → Bool
  | none => true
  | some (.rich_text spans) => spans.isEmpty
  | some (.title spans) => spans.isEmpty
  | some (.select s) => s.isNone
  | some (.multi_select tags) => tags.isEmpty
  | some (.number n) => n.isNone
  | some .other => false

/-- First page of the two-page test database. -/
def pageA : Page := ⟨("a".data), some []⟩

/-- Second page of the two-page test database. -/
def pageB : Page := ⟨("b".data), some []⟩

/-- A remote database holding two pages: the first reply carries
`has_more = true` and `next_cursor = "c1"`, the second the final page. -/
def twoPageRemote : Remote := fun req =>
  match req.start_cursor with
  | none => .ok ⟨[pageA], true, some ("c1".data)⟩
  | some c =>
    if c = ("c1".data) then .ok ⟨[pageB], false, none⟩
    else .error ("unknown cursor".data)

/-!
Lemmas.  First the basic facts about the string model, then the claim
theorems.
-/

theorem dropWhile_idem (p : Char → Bool) (l : Str) :
    (l.dropWhile p).dropWhile p = l.dropWhile p := by
  induction l with
  | nil => rfl
  | cons c cs ih =>
    by_cases h : p c
    · simp [List.dropWhile, h, ih]
    · simp [List.dropWhile, h]

theorem head_dropWhile_false (p : Char → Bool) :
    ∀ (l : Str) c t, l.dropWhile p = c :: t → p c = false := by
  intro l
  induction l with
  | nil => intro c t h; simp [List.dropWhile] at h
  | cons a as ih =>
    intro c t h
    by_cases ha : p a
    · rw [List.dropWhile_cons_of_pos ha] at h
      exact ih c t h
    · rw [List.dropWhile_cons_of_neg ha] at h
      cases h
      exact Bool.of_not_eq_true ha

theorem trimStart_idem (s : Str) : trimStart (trimStart s) = trimStart s := by
  simp [trimStart, dropWhile_idem]

theorem trimEnd_idem (s : Str) : trimEnd (trimEnd s) = trimEnd s := by
  simp [trimEnd, dropWhile_idem]

theorem dropWhile_append_str (p : Char → Bool) (l₁ l₂ : Str) :
    (l₁ ++ l₂).dropWhile p =
      if (l₁.dropWhile p).isEmpty then l₂.dropWhile p
      else l₁.dropWhile p ++ l₂ := by
  induction l₁ with
  | nil => simp
  | cons c cs ih =>
    by_cases h : p c
    · simp [List.dropWhile_cons_of_pos h, ih]
    · simp [List.dropWhile_cons_of_neg h]

theorem trimEnd_cons (c : Char) (t : Str) :
    trimEnd (c :: t) =
      if (trimEnd t).isEmpty then (if isWs c then [] else [c])
      else c :: trimEnd t := by
  have hrev : (trimEnd t).isEmpty = (t.reverse.dropWhile isWs).isEmpty := by
    cases h : t.reverse.dropWhile isWs <;> simp [trimEnd, h]
  rw [hrev]
  unfold trimEnd
  rw [show (c :: t).reverse = t.reverse ++ [c] by simp,
    dropWhile_append_str]
  by_cases h : (t.reverse.dropWhile isWs).isEmpty
  · rw [if_pos h, if_pos h]
    by_cases hc : isWs c
    · simp [List.dropWhile, hc]
    · simp [List.dropWhile, hc]
  · rw [if_neg h, if_neg h]
    simp

theorem trimEnd_cons_of_not_ws {c : Char} (t : Str) (h : isWs c = false) :
    ∃ t', trimEnd (c :: t) = c :: t' := by
  rw [trimEnd_cons]
  by_cases he : (trimEnd t).isEmpty
  · exact ⟨[], by simp [he, h]⟩
  · exact ⟨trimEnd t, by simp [he]⟩

theorem trimStr_idem (s : Str) : trimStr (trimStr s) = trimStr s := by
  unfold trimStr
  rcases hu : trimStart s with _ | ⟨c, t⟩
  · rfl
  · have hc : isWs c = false := head_dropWhile_false isWs s c t hu
    obtain ⟨t', ht'⟩ := trimEnd_cons_of_not_ws t hc
    rw [ht']
    have hcne : ¬ isWs c = true := by simp [hc]
    have hstart : trimStart (c :: t') = c :: t' := by
      simp [trimStart, List.dropWhile_cons_of_neg hcne]
    rw [hstart, ← ht', trimEnd_idem]


-- Claim C2 (corrected).

/-- Claim C2, counterexample: `parseMultiSelect` applied to `"A, B, B, C"`
yields the four tags `[A, B, B, C]` — the duplicate `B` is NOT collapsed —
and hence not the deduplicated `[A, B, C]` the claim asserts. -/
theorem c2_multiChoice_counterexample :
    parseMultiSelect ("A, B, B, C".data) =
      [⟨("A".data)⟩, ⟨("B".data)⟩, ⟨("B".data)⟩, ⟨("C".data)⟩] ∧
    parseMultiSelect ("A, B, B, C".data) ≠
      [⟨("A".data)⟩, ⟨("B".data)⟩, ⟨("C".data)⟩] := by
  constructor
  · rfl
  · decide

/-- Claim C2 as amended: for every input string, `parseMultiSelect` splits
on the comma delimiter, trims whitespace, drops empty entries, and
produces the ordered list of choice tags with order and multiplicity
preserved (no deduplication); every produced tag name is nonempty and
trimmed, and applied to `"A, B, B, C"` it yields exactly `[A, B, B, C]`. -/
theorem c2_multiChoice_amended :
    (parseMultiSelect ("A, B, B, C".data) =
      [⟨("A".data)⟩, ⟨("B".data)⟩, ⟨("B".data)⟩, ⟨("C".data)⟩]) ∧
    (∀ (s : Str) (c : Choice), c ∈ parseMultiSelect s →
      c.name ≠ [] ∧ trimStr c.name = c.name) ∧
    (∀ s : Str, (parseMultiSelect s).map Choice.name =
      ((splitComma s).map trimStr).filter (fun t => t ≠ [])) := by
  refine ⟨rfl, ?_, ?_⟩
  · intro s c hc
    unfold parseMultiSelect at hc
    obtain ⟨n, hn, hne⟩ := List.mem_map.mp hc
    obtain ⟨hn', hp⟩ := List.mem_filter.mp hn
    obtain ⟨m, _, hmn⟩ := List.mem_map.mp hn'
    subst hne
    constructor
    · simpa using hp
    · rw [← hmn, trimStr_idem]
  · intro s
    unfold parseMultiSelect
    rw [List.map_map]
    have : (Choice.name ∘ fun name => Choice.mk name) = id := rfl
    rw [this, List.map_id]

/-- Claim C2 witness: the amended theorem evaluated on `"A, B"` at the
produced tag `A`. -/
theorem c2_multiChoice_amended_witness :
    (Choice.mk ("A".data)).name ≠ [] ∧
    trimStr (Choice.mk ("A".data)).name = (Choice.mk ("A".data)).name :=
  c2_multiChoice_amended.2.1 ("A, B".data) ⟨("A".data)⟩ (by decide)

-- Claim C9 (confirmed).

/-- Claim C9: a page object without a `"properties"` key is reported as
having no empty properties (so it is never eligible), and its update map
is always empty. -/
theorem c9_missing_properties_key {V : Type} (page : Page)
    (requiredFields : List Str) (data : Str → Option V)
    (fieldMappings : List (Str × Str × (V → NotionPropertyRequest)))
    (h : page.properties = none) :
    hasEmptyProperties page requiredFields = false ∧
    buildPropertyUpdates page data fieldMappings = [] := by
  constructor
  · simp [hasEmptyProperties, h]
  · simp [buildPropertyUpdates, h]

/-- Claim C9 witness: a concrete page with no `"properties"` key. -/
theorem c9_missing_properties_key_witness :
    hasEmptyProperties ⟨("p1".data), none⟩ [("Name".data)] = false ∧
    buildPropertyUpdates (V := Unit) ⟨("p1".data), none⟩ (fun _ => none) []
      = [] :=
  c9_missing_properties_key ⟨("p1".data), none⟩ [("Name".data)]
    (fun _ => none) [] rfl

-- Soundness of the update fold (shared by claims C7 and C10).

theorem upsert_mem {p : Str × NotionPropertyRequest}
    (l : List (Str × NotionPropertyRequest)) (k : Str)
    (v : NotionPropertyRequest) (h : p ∈ upsert l k v) :
    p ∈ l ∨ p = (k, v) := by
  unfold upsert at h
  by_cases ha : l.any (fun q => q.1 = k)
  · rw [if_pos ha] at h
    obtain ⟨q, hq, hqe⟩ := List.mem_map.mp h
    by_cases hk : q.1 = k
    · right
      rw [if_pos hk] at hqe
      exact hqe.symm
    · left
      rw [if_neg hk] at hqe
      exact hqe ▸ hq
  · rw [if_neg ha] at h
    rcases List.mem_append.mp h with h1 | h2
    · exact Or.inl h1
    · exact Or.inr (by simpa using h2)

theorem applyMapping_fold_mem {V : Type}
    (props : List (Str × NotionProperty)) (data : Str → Option V) :
    ∀ (ms : List (Str × Str × (V → NotionPropertyRequest)))
      (acc : List (Str × NotionPropertyRequest))
      (p : Str × NotionPropertyRequest),
      p ∈ ms.foldl (applyMapping props data) acc →
      p ∈ acc ∨ ∃ m ∈ ms, p.1 = m.1 ∧ (∃ v, data m.2.1 = some v) ∧
        isEmpty (lookupProp props m.1) = true := by
  intro ms
  induction ms with
  | nil => intro acc p hp; exact Or.inl hp
  | cons m ms ih =>
    intro acc p hp
    rw [List.foldl_cons] at hp
    rcases ih (applyMapping props data acc m) p hp with hacc | ⟨m', hm', h1, h2, h3⟩
    · rcases hd : data m.2.1 with _ | v
      · simp only [applyMapping, hd] at hacc
        exact Or.inl hacc
      · simp only [applyMapping, hd] at hacc
        by_cases he : isEmpty (lookupProp props m.1) = true
        · rw [if_pos he] at hacc
          rcases upsert_mem acc m.1 (m.2.2 v) hacc with h1 | h2
          · exact Or.inl h1
          · refine Or.inr ⟨m, List.mem_cons_self m ms, ?_, ⟨v, hd⟩, he⟩
            rw [h2]
        · rw [if_neg he] at hacc
          exact Or.inl hacc
    · exact Or.inr ⟨m', List.mem_cons_of_mem m hm', h1, h2, h3⟩

-- Claim C10 (confirmed).

/-- Claim C10: every key of the update map produced by
`buildPropertyUpdates` is the remote property name of one of the field
mappings, and its entry was produced from a result value that is neither
`null` nor `undefined` — no update can touch a field outside the
configured mappings. -/
theorem c10_updates_within_mappings {V : Type} (page : Page)
    (data : Str → Option V)
    (fieldMappings : List (Str × Str × (V → NotionPropertyRequest)))
    (k : Str) (r : NotionPropertyRequest)
    (h : (k, r) ∈ buildPropertyUpdates page data fieldMappings) :
    ∃ m ∈ fieldMappings, k = m.1 ∧ ∃ v, data m.2.1 = some v := by
  unfold buildPropertyUpdates at h
  rcases hp : page.properties with _ | props
  · rw [hp] at h
    simp at h
  · rw [hp] at h
    rcases applyMapping_fold_mem props data fieldMappings [] (k, r) h with
      habs | ⟨m, hm, h1, h2, _⟩
    · simp at habs
    · exact ⟨m, hm, h1, h2⟩

/-- Claim C10 witness: one concrete mapping, an empty target property and
a present result value put `size` in the update map; the theorem locates
its provenance. -/
theorem c10_updates_within_mappings_witness :
    ∃ m ∈ [(("size".data), ("sz".data), propertyBuilders.select)],
      ("size".data) = m.1 ∧
      ∃ v, (fun k => if k = ("sz".data) then some ("L".data) else none) m.2.1
        = some v :=
  c10_updates_within_mappings
    ⟨("p2".data), some [(("size".data), NotionProperty.select none)]⟩
    (fun k => if k = ("sz".data) then some ("L".data) else none)
    [(("size".data), ("sz".data), propertyBuilders.select)]
    ("size".data) (propertyBuilders.select ("L".data)) (by decide)

-- Claim C7 (confirmed).

/-- Claim C7: the update set built by `buildPropertyUpdates` contains only
target fields that are currently empty on the record; a field holding a
non-empty value is never included even when the annotation result supplies
a value for it; and when every mapped target field is non-empty the update
set is empty and the pipeline's per-record step emits only the skip log
line — the record receives no write at all. -/
theorem c7_never_overwrite {V : Type} (page : Page)
    (props : List (Str × NotionProperty)) (data : Str → Option V)
    (fieldMappings : List (Str × Str × (V → NotionPropertyRequest)))
    (hprops : page.properties = some props) :
    (∀ k r, (k, r) ∈ buildPropertyUpdates page data fieldMappings →
      isEmpty (lookupProp props k) = true) ∧
    (∀ k, isEmpty (lookupProp props k) = false →
      ∀ r, (k, r) ∉ buildPropertyUpdates page data fieldMappings) ∧
    ((∀ m ∈ fieldMappings, isEmpty (lookupProp props m.1) = false) →
      buildPropertyUpdates page data fieldMappings = [] ∧
      ∀ extractName : Page → Str,
        annotateEffects [page] extractName [data]
          (fun pg dt => buildPropertyUpdates pg dt fieldMappings) =
          [Effect.skipFilled (extractName page)]) := by
  have hsound : ∀ k r, (k, r) ∈ buildPropertyUpdates page data fieldMappings →
      isEmpty (lookupProp props k) = true := by
    intro k r h
    unfold buildPropertyUpdates at h
    rw [hprops] at h
    rcases applyMapping_fold_mem props data fieldMappings [] (k, r) h with
      habs | ⟨m, _, h1, _, h3⟩
    · simp at habs
    · rw [show k = m.1 from h1]
      exact h3
  refine ⟨hsound, ?_, ?_⟩
  · intro k hk r hmem
    rw [hsound k r hmem] at hk
    cases hk
  · intro hall
    have hempty : buildPropertyUpdates page data fieldMappings = [] := by
      rw [List.eq_nil_iff_forall_not_mem]
      intro p hp
      unfold buildPropertyUpdates at hp
      rw [hprops] at hp
      rcases applyMapping_fold_mem props data fieldMappings [] p hp with
        habs | ⟨m, hm, _, _, h3⟩
      · simp at habs
      · rw [hall m hm] at h3
        cases h3
    refine ⟨hempty, ?_⟩
    intro extractName
    simp [annotateEffects, annotateLoop, recordOutcome, hempty]

/-- Claim C7 witness: a record whose single mapped target field `size`
already holds a value receives an empty update set and only a skip
effect, although the result supplies a value. -/
theorem c7_never_overwrite_witness :
    buildPropertyUpdates (V := Unit)
      ⟨("p3".data), some [(("size".data), NotionProperty.select (some ("M".data)))]⟩
      (fun _ => some ())
      [(("size".data), ("sz".data), fun _ => propertyBuilders.select ("L".data))]
      = [] ∧
    annotateEffects
      [⟨("p3".data), some [(("size".data), NotionProperty.select (some ("M".data)))]⟩]
      (fun _ => ("n".data)) [fun _ => (some () : Option Unit)]
      (fun pg dt => buildPropertyUpdates pg dt
        [(("size".data), ("sz".data), fun _ => propertyBuilders.select ("L".data))])
      = [Effect.skipFilled ("n".data)] := by
  have h := (c7_never_overwrite (V := Unit)
      ⟨("p3".data), some [(("size".data), NotionProperty.select (some ("M".data)))]⟩
      [(("size".data), NotionProperty.select (some ("M".data)))]
      (fun _ => some ())
      [(("size".data), ("sz".data), fun _ => propertyBuilders.select ("L".data))]
      rfl).2.2 (by
        intro m hm
        rw [List.mem_singleton] at hm
        subst hm
        decide)
  exact ⟨h.1, h.2 (fun _ => ("n".data))⟩

-- Claim C6 (confirmed).

theorem annotateLoop_length {T : Type} (extractName : Page → Str)
    (buildUpdates : Page → T → List (Str × NotionPropertyRequest))
    (parsed : List T) :
    ∀ (i : Nat) (pages : List Page),
      (annotateLoop extractName buildUpdates parsed i pages).length =
        pages.length := by
  intro i pages
  induction pages generalizing i with
  | nil => rfl
  | cons page rest ih => simp [annotateLoop, ih]

theorem annotateLoop_get? {T : Type} (extractName : Page → Str)
    (buildUpdates : Page → T → List (Str × NotionPropertyRequest))
    (parsed : List T) :
    ∀ (pages : List Page) (i k : Nat) (hk : k < pages.length),
      (annotateLoop extractName buildUpdates parsed i pages).get? k =
        some (recordOutcome extractName buildUpdates parsed (i + k)
          (pages.get ⟨k, hk⟩)) := by
  intro pages
  induction pages with
  | nil => intro i k hk; cases hk
  | cons page rest ih =>
    intro i k hk
    cases k with
    | zero => simp [annotateLoop]
    | succ k' =>
      have hk' : k' < rest.length := Nat.lt_of_succ_lt_succ hk
      have := ih (i + 1) k' hk'
      simp only [annotateLoop, List.get?_cons_succ, List.get_cons_succ]
      rw [this]
      congr 2
      omega

/-- Claim C6: when the parsed response array is shorter than the page
list, the pipeline logs the count-mismatch warning first, still emits
exactly one effect per record (so it neither aborts nor raises), performs
the per-record update step at every position that has a result object
(a write exactly when the update set is non-empty), and performs no write
at any position past the end of the response array. -/
theorem c6_short_response {T : Type} (pages : List Page)
    (extractName : Page → Str) (parsed : List T)
    (buildUpdates : Page → T → List (Str × NotionPropertyRequest))
    (hshort : parsed.length < pages.length) :
    (Effect.warnMismatch pages.length parsed.length ∈
      annotateEffects pages extractName parsed buildUpdates) ∧
    ((annotateEffects pages extractName parsed buildUpdates).length =
      pages.length + 1) ∧
    ((annotateEffects pages extractName parsed buildUpdates).get? 0 =
      some (Effect.warnMismatch pages.length parsed.length)) ∧
    (∀ k (hk : k < pages.length), parsed.length ≤ k →
      (annotateEffects pages extractName parsed buildUpdates).get? (k + 1) =
        some (Effect.noData (extractName (pages.get ⟨k, hk⟩)))) ∧
    (∀ k (hk : k < pages.length) (hp : k < parsed.length),
      (annotateEffects pages extractName parsed buildUpdates).get? (k + 1) =
        some (if (buildUpdates (pages.get ⟨k, hk⟩) (parsed.get ⟨k, hp⟩)).isEmpty
          then Effect.skipFilled (extractName (pages.get ⟨k, hk⟩))
          else Effect.write (pages.get ⟨k, hk⟩).id
            (buildUpdates (pages.get ⟨k, hk⟩) (parsed.get ⟨k, hp⟩)))) := by
  have hne : parsed.length ≠ pages.length := Nat.ne_of_lt hshort
  have heff : annotateEffects pages extractName parsed buildUpdates =
      Effect.warnMismatch pages.length parsed.length ::
        annotateLoop extractName buildUpdates parsed 0 pages := by
    simp [annotateEffects, hne]
  refine ⟨?_, ?_, ?_, ?_, ?_⟩
  · rw [heff]; exact List.mem_cons_self _ _
  · rw [heff]
    simp [annotateLoop_length]
  · rw [heff]; rfl
  · intro k hk hpast
    rw [heff]
    rw [List.get?_cons_succ]
    rw [annotateLoop_get? extractName buildUpdates parsed pages 0 k hk]
    unfold recordOutcome
    have h0 : parsed[0 + k]? = none := by
      rw [List.getElem?_eq_none_iff]
      omega
    rw [h0]
  · intro k hk hp
    rw [heff]
    rw [List.get?_cons_succ]
    rw [annotateLoop_get? extractName buildUpdates parsed pages 0 k hk]
    unfold recordOutcome
    have h0 : parsed[0 + k]? = some (parsed.get ⟨k, hp⟩) := by
      rw [Nat.zero_add]
      rw [List.getElem?_eq_getElem hp]
      simp
    rw [h0]

/-- Claim C6 witness: two pages, one parsed result; the warning is
logged, position 0 performs its update step and position 1 gets only the
no-data skip. -/
theorem c6_short_response_witness :
    (Effect.warnMismatch 2 1 ∈
      annotateEffects [⟨("x".data), none⟩, ⟨("y".data), none⟩]
        (fun p => p.id) [()] (fun _ _ => [])) ∧
    ((annotateEffects [⟨("x".data), none⟩, ⟨("y".data), none⟩]
        (fun p => p.id) [()] (fun _ _ => [])).get? 2 =
      some (Effect.noData ("y".data))) := by
  have h := c6_short_response [⟨("x".data), none⟩, ⟨("y".data), none⟩]
    (fun p => p.id) [()] (fun _ _ => []) (by decide)
  exact ⟨h.1, h.2.2.2.1 1 (by decide) (by decide)⟩

-- Claim C3 (confirmed).

theorem lookupProp_mem :
    ∀ (props : List (Str × NotionProperty)) (name : Str) (v : NotionProperty),
      lookupProp props name = some v → ∃ k, (k, v) ∈ props := by
  intro props
  induction props with
  | nil => intro name v h; simp [lookupProp] at h
  | cons kv rest ih =>
    intro name v h
    unfold lookupProp at h
    by_cases hk : kv.1 = name
    · rw [if_pos hk] at h
      cases h
      exact ⟨kv.1, by simp⟩
    · rw [if_neg hk] at h
      obtain ⟨k, hkmem⟩ := ih name v h
      exact ⟨k, List.mem_cons_of_mem kv hkmem⟩

theorem isEmpty_eq_specFieldEmpty
    (props : List (Str × NotionProperty))
    (hkinds : ∀ kv ∈ props, kv.2 ≠ NotionProperty.other) (f : Str) :
    isEmpty (lookupProp props f) = specFieldEmpty (lookupProp props f) := by
  rcases hl : lookupProp props f with _ | v
  · rfl
  · obtain ⟨k, hk⟩ := lookupProp_mem props f v hl
    have hv : v ≠ NotionProperty.other := hkinds (k, v) hk
    cases v with
    | other => exact absurd rfl hv
    | number n => rfl
    | rich_text spans => cases spans <;> rfl
    | select s => rfl
    | multi_select tags => cases tags <;> rfl
    | title spans => cases spans <;> rfl

/-- Claim C3: for every record with a field map containing only the
modelled field kinds and every list of required field names,
`hasEmptyProperties` returns `true` iff at least one required field is
empty under the spec's kind-specific emptiness rule (absent counts as
empty), and `false` iff all of them are non-empty. -/
theorem c3_isEligible_iff (page : Page)
    (props : List (Str × NotionProperty)) (requiredFields : List Str)
    (hprops : page.properties = some props)
    (hkinds : ∀ kv ∈ props, kv.2 ≠ NotionProperty.other) :
    (hasEmptyProperties page requiredFields = true ↔
      ∃ f ∈ requiredFields, specFieldEmpty (lookupProp props f) = true) ∧
    (hasEmptyProperties page requiredFields = false ↔
      ∀ f ∈ requiredFields, specFieldEmpty (lookupProp props f) = false) := by
  have hpt : (fun f => isEmpty (lookupProp props f)) =
      (fun f => specFieldEmpty (lookupProp props f)) :=
    funext (isEmpty_eq_specFieldEmpty props hkinds)
  have hHE : hasEmptyProperties page requiredFields =
      requiredFields.any (fun f => specFieldEmpty (lookupProp props f)) := by
    simp only [hasEmptyProperties, hprops]
    rw [hpt]
  constructor
  · rw [hHE]
    exact List.any_eq_true
  · rw [hHE]
    rw [List.any_eq_false]
    constructor
    · intro h f hf
      have := h f hf
      simpa using this
    · intro h f hf
      simp [h f hf]

/-- Claim C3 witness: a record whose single field `a` is an empty text
property is eligible, matching the spec-side rule. -/
theorem c3_isEligible_iff_witness :
    hasEmptyProperties
      ⟨("p4".data), some [(("a".data), NotionProperty.rich_text [])]⟩
      [("a".data)] = true ↔
    ∃ f ∈ [("a".data)],
      specFieldEmpty
        (lookupProp [(("a".data), NotionProperty.rich_text [])] f) = true :=
  (c3_isEligible_iff
    ⟨("p4".data), some [(("a".data), NotionProperty.rich_text [])]⟩
    [(("a".data), NotionProperty.rich_text [])] [("a".data)]
    rfl (by decide)).1

-- Claim C4 (confirmed).

theorem strStartsWith_self : ∀ s : Str, strStartsWith s s = true := by
  intro s
  induction s with
  | nil => rfl
  | cons c rest ih => simp [strStartsWith, ih]

theorem replaceFirst_exact (ph repl : Str) (hne : ph ≠ []) :
    replaceFirst ph ph repl = repl := by
  cases ph with
  | nil => exact absurd rfl hne
  | cons c rest =>
    simp only [replaceFirst, strStartsWith_self, if_true]
    simp [List.drop_length]

/-- Claim C4: for every ordered list of `N` record display names the
prompt builder produces exactly `N` numbered entries, entry `k` (from 0)
reading `k+1`, a dot-space, then the `k`-th input name, in input order;
substituting them into the placeholder template yields exactly the joined
numbered list. -/
theorem c4_buildPrompt_numbered (names : List Str) :
    ((placesList names).length = names.length) ∧
    (∀ k (hk : k < names.length),
      (placesList names).get? k =
        some (((toString (k + 1)).data) ++ (". ".data) ++ names.get ⟨k, hk⟩)) ∧
    (buildPrompt ("\x7b\x7bPLACES_LIST\x7d\x7d".data) names =
      List.intercalate ("\n".data) (placesList names)) := by
  refine ⟨?_, ?_, ?_⟩
  · simp [placesList]
  · intro k hk
    unfold placesList
    rw [List.get?_map, List.get?_enum]
    rw [List.get?_eq_get hk]
    rfl
  · unfold buildPrompt
    exact replaceFirst_exact _ _ (by decide)

/-- Claim C4 witness: the second entry for names `["A", "B"]` is
`"2. B"`. -/
theorem c4_buildPrompt_numbered_witness :
    (placesList [("A".data), ("B".data)]).get? 1 =
      some (((toString (1 + 1)).data) ++ (". ".data) ++ ("B".data)) :=
  (c4_buildPrompt_numbered [("A".data), ("B".data)]).2.1 1 (by decide)

-- Claim C8 (confirmed).

theorem isTravelPlace_eq_false {p : Json} {f : Str} (hf : f ∈ travelFields)
    (hbad : isStrAt p f = false) : isTravelPlace p = false := by
  cases p
  case obj fields =>
    simp only [isTravelPlace]
    rw [List.all_eq_false]
    exact ⟨f, hf, by simp [hbad]⟩
  all_goals rfl

theorem isWalk_eq_false {w : Json}
    (hbad : isNumAt w ("distance".data) = false ∨
      ∃ f ∈ walksStrFields, isStrAt w f = false) : isWalk w = false := by
  rcases hbad with hd | ⟨f, hf, hs⟩
  · simp [isWalk, hd]
  · have : walksStrFields.all (fun f => isStrAt w f) = false := by
      rw [List.all_eq_false]
      exact ⟨f, hf, by simp [hs]⟩
    simp [isWalk, this]

/-- Claim C8: a decoded response whose designated array key is missing, or
in which any one array element lacks a required field of the declared
primitive kind, is rejected whole by `parseResponse` with an error — in
both the travel and the walks workflow — even if every other element is
well-formed. -/
theorem c8_shape_rejection (j j' : Json) (ps ws : List Json) :
    ((jGet j ("places".data) = none →
      parseTravelResponse j =
        .error ("Response missing places array or invalid structure".data)) ∧
     (jGet j ("places".data) = some (Json.arr ps) →
      (∃ p ∈ ps, ∃ f ∈ travelFields, isStrAt p f = false) →
      parseTravelResponse j =
        .error ("Response missing places array or invalid structure".data))) ∧
    ((jGet j' ("walks".data) = none →
      parseWalksResponse j' =
        .error ("Response missing walks array or invalid structure".data)) ∧
     (jGet j' ("walks".data) = some (Json.arr ws) →
      (∃ w ∈ ws, isNumAt w ("distance".data) = false ∨
        ∃ f ∈ walksStrFields, isStrAt w f = false) →
      parseWalksResponse j' =
        .error ("Response missing walks array or invalid structure".data))) := by
  refine ⟨⟨?_, ?_⟩, ⟨?_, ?_⟩⟩
  · intro hnone
    have hval : isValidTravelPlacesResponse j = false := by
      cases j <;> simp [isValidTravelPlacesResponse, hnone] at hnone ⊢
    simp [parseTravelResponse, hval]
  · intro harr ⟨p, hp, f, hf, hs⟩
    have hval : isValidTravelPlacesResponse j = false := by
      cases j <;> simp [jGet] at harr ⊢
      case obj fields =>
        simp [isValidTravelPlacesResponse, jGet, harr]
        exact ⟨p, hp, isTravelPlace_eq_false hf hs⟩
    simp [parseTravelResponse, hval]
  · intro hnone
    have hval : isValidWalksResponse j' = false := by
      cases j' <;> simp [isValidWalksResponse, isObjLike, hnone] at hnone ⊢
    simp [parseWalksResponse, hval]
  · intro harr ⟨w, hw, hbad⟩
    have hval : isValidWalksResponse j' = false := by
      cases j' <;> simp [jGet] at harr ⊢
      case obj fields =>
        simp [isValidWalksResponse, isObjLike, jGet, harr]
        exact ⟨w, hw, isWalk_eq_false hbad⟩
    simp [parseWalksResponse, hval]

/-- Claim C8 witness: an object without the `places` key is rejected by
the travel parser, and a `walks` array with one element lacking every
field is rejected by the walks parser. -/
theorem c8_shape_rejection_witness :
    parseTravelResponse (Json.obj []) =
      .error ("Response missing places array or invalid structure".data) ∧
    parseWalksResponse
      (Json.obj [(("walks".data), Json.arr [Json.obj []])]) =
      .error ("Response missing walks array or invalid structure".data) := by
  have h := c8_shape_rejection (Json.obj [])
    (Json.obj [(("walks".data), Json.arr [Json.obj []])]) [] [Json.obj []]
  refine ⟨h.1.1 rfl, h.2.2 rfl ?_⟩
  exact ⟨Json.obj [], List.mem_singleton.mpr rfl, Or.inl (by decide)⟩

-- Claim C1 (code bug: getAllPages does not paginate).

/-- Claim C1, divergence: on a database whose first query reply reports
`has_more = true` with `next_cursor = "c1"`, `getAllPages` returns only
the first page's results — it sends a single request with an empty body
(no cursor, no page size) and never reads `has_more`/`next_cursor` —
whereas the record-source contract (followed by the paginating duplicate
implementation in the repository) returns both pages.  The error branch
for a non-success status is as claimed. -/
theorem c1_getAllPages_divergence :
    getAllPages twoPageRemote = .ok [pageA] ∧
    getAllPagesPaginated twoPageRemote 2 none = .ok [pageA, pageB] ∧
    getAllPages twoPageRemote ≠ getAllPagesPaginated twoPageRemote 2 none ∧
    getAllPages (fun _ => .error ("boom".data)) =
      .error (("Failed to query database: ".data) ++ ("boom".data)) := by
  refine ⟨rfl, rfl, ?_, rfl⟩
  intro h
  rw [show getAllPages twoPageRemote = Except.ok [pageA] from rfl,
    show getAllPagesPaginated twoPageRemote 2 none =
      Except.ok [pageA, pageB] from rfl] at h
  simp [pageA, pageB] at h

-- Claim C5 (corrected).

/-- Claim C5, counterexample: for the response text `T = "```[1,2]"` —
a text that itself begins with a code fence — bare parsing strips `T`'s
own fence and succeeds with the array `[1,2]`, while the fence-wrapped
form `"```json\nT\n```"` leaves the inner fence in place and fails; so
wrapping in fence markers does NOT always parse identically to the bare
text. -/
theorem c5_fence_counterexample :
    parseAIResponse ("```[1,2]".data) =
      .ok (Json.arr [Json.num ("1".data), Json.num ("2".data)]) ∧
    parseAIResponse (("```json\n".data) ++ ("```[1,2]".data) ++ ("\n```".data)) =
      .error ("AI did not return valid JSON".data) ∧
    parseAIResponse (("```json\n".data) ++ ("```[1,2]".data) ++ ("\n```".data)) ≠
      parseAIResponse ("```[1,2]".data) := by
  refine ⟨rfl, rfl, ?_⟩
  intro h
  rw [show parseAIResponse (("```json\n".data) ++ ("```[1,2]".data) ++
      ("\n```".data)) = .error ("AI did not return valid JSON".data) from rfl,
    show parseAIResponse ("```[1,2]".data) =
      .ok (Json.arr [Json.num ("1".data), Json.num ("2".data)]) from rfl] at h
  exact Except.noConfusion h

-- Helper lemmas for the amended claim C5.

theorem strStartsWith_nil_pattern (s : Str) : strStartsWith s [] = true := by
  cases s <;> rfl

theorem strStartsWith_append_self : ∀ p r : Str, strStartsWith (p ++ r) p = true := by
  intro p
  induction p with
  | nil => intro r; exact strStartsWith_nil_pattern r
  | cons c cs ih => intro r; simp [strStartsWith, ih]

theorem strStartsWith_of_append_pattern :
    ∀ (p q s : Str), strStartsWith s (p ++ q) = true →
      strStartsWith s p = true := by
  intro p
  induction p with
  | nil => intro q s _; cases s <;> rfl
  | cons a p' ih =>
    intro q s h
    cases s with
    | nil => simp [strStartsWith] at h
    | cons c cs =>
      simp only [List.cons_append, strStartsWith, Bool.and_eq_true] at h ⊢
      exact ⟨h.1, ih q cs h.2⟩

theorem trimStart_append_of_stable (p X : Str) (hp : trimStart p = p)
    (hne : p ≠ []) : trimStart (p ++ X) = p ++ X := by
  unfold trimStart at hp ⊢
  rw [dropWhile_append_str]
  rw [hp]
  rw [if_neg (by simpa using hne)]

theorem trimEnd_append_of_stable (X q : Str) (hq : trimEnd q = q)
    (hne : q ≠ []) : trimEnd (X ++ q) = X ++ q := by
  have hqrev : q.reverse.dropWhile isWs = q.reverse := by
    have := congrArg List.reverse hq
    simpa [trimEnd] using this
  unfold trimEnd
  rw [List.reverse_append, dropWhile_append_str, hqrev]
  rw [if_neg (by simpa using hne)]
  simp

theorem stripEndFence_append (l : Str) :
    stripEndFence (l ++ ("\n```".data)) = trimEnd l := by
  unfold stripEndFence
  have hend : strEndsWith (l ++ ("\n```".data)) ("```".data) = true := by
    unfold strEndsWith
    rw [List.reverse_append,
      show (("\n```".data) : Str).reverse = ("```".data) ++ ['\n'] from rfl,
      List.append_assoc]
    exact strStartsWith_append_self _ _
  rw [if_pos hend]
  have hdrop : strDropRight 3 (l ++ ("\n```".data)) = l ++ ['\n'] := by
    unfold strDropRight
    rw [List.reverse_append,
      show (("\n```".data) : Str).reverse = ("```".data) ++ ['\n'] from rfl,
      List.append_assoc,
      show List.drop 3 ((("```".data) : Str) ++ (['\n'] ++ l.reverse)) =
        '\n' :: l.reverse from rfl]
    simp
  rw [hdrop]
  unfold trimEnd
  rw [List.reverse_append,
    show ((['\n'] : Str)).reverse = ['\n'] from rfl,
    show ((['\n'] : Str)) ++ l.reverse = '\n' :: l.reverse from rfl,
    List.dropWhile_cons_of_pos (by decide)]

theorem cleanResponseText_json_branch (raw : Str)
    (hne : (trimStr raw).isEmpty = false)
    (hjson : strStartsWith (trimStr raw) ("```json".data) = true) :
    cleanResponseText raw =
      .ok (stripEndFence (((trimStr raw).drop 7).dropWhile isWs)) := by
  simp only [cleanResponseText]
  rw [hne, hjson]
  simp

theorem cleanResponseText_plain_branch (raw : Str)
    (hne : (trimStr raw).isEmpty = false)
    (hnotjson : strStartsWith (trimStr raw) ("```json".data) = false)
    (hfence : strStartsWith (trimStr raw) ("```".data) = true) :
    cleanResponseText raw =
      .ok (stripEndFence (((trimStr raw).drop 3).dropWhile isWs)) := by
  simp only [cleanResponseText]
  rw [hne, hnotjson, hfence]
  simp

theorem cleanResponseText_bare (T : Str)
    (hT : strStartsWith (trimStr T) ("```".data) = false)
    (hne : trimStr T ≠ []) :
    cleanResponseText T = .ok (trimStr T) := by
  have hne' : (trimStr T).isEmpty = false := by
    cases h : trimStr T
    · exact absurd h hne
    · rfl
  have hnotjson : strStartsWith (trimStr T) ("```json".data) = false := by
    cases hsj : strStartsWith (trimStr T) ("```json".data)
    · rfl
    · exfalso
      have := strStartsWith_of_append_pattern ("```".data) ("json".data)
        (trimStr T)
        (by rw [show (("```".data) : Str) ++ ("json".data) =
          (("```json".data) : Str) from rfl]; exact hsj)
      rw [hT] at this
      cases this
  simp only [cleanResponseText]
  rw [hne', hnotjson, hT]
  simp

theorem stripEndFence_dropped (T : Str) :
    stripEndFence ((T ++ ("\n```".data)).dropWhile isWs) = trimStr T := by
  rw [dropWhile_append_str]
  by_cases hE : (T.dropWhile isWs).isEmpty
  · rw [if_pos hE]
    rw [show List.dropWhile isWs (("\n```".data) : Str) = ("```".data) from
      by decide]
    rw [show stripEndFence (("```".data) : Str) = ([] : Str) from by decide]
    rcases h : T.dropWhile isWs with _ | ⟨c, t⟩
    · unfold trimStr trimStart
      rw [h]
      rfl
    · rw [h] at hE
      simp at hE
  · rw [if_neg hE]
    rw [stripEndFence_append]
    rfl

theorem cleanResponseText_wrapped_json (T : Str) :
    cleanResponseText ((("```json\n".data) ++ T) ++ ("\n```".data)) =
      .ok (trimStr T) := by
  have h1 : trimStart (("```json\n".data) ++ (T ++ ("\n```".data))) =
      ("```json\n".data) ++ (T ++ ("\n```".data)) :=
    trimStart_append_of_stable _ _ (by decide) (by decide)
  have h2 : trimEnd ((("```json\n".data) ++ T) ++ ("\n```".data)) =
      (("```json\n".data) ++ T) ++ ("\n```".data) :=
    trimEnd_append_of_stable _ _ (by decide) (by decide)
  have htrim : trimStr ((("```json\n".data) ++ T) ++ ("\n```".data)) =
      (("```json\n".data) ++ T) ++ ("\n```".data) := by
    unfold trimStr
    rw [List.append_assoc, h1, ← List.append_assoc, h2]
  have hne : (trimStr ((("```json\n".data) ++ T) ++ ("\n```".data))).isEmpty
      = false := by
    rw [htrim]; rfl
  have hjson : strStartsWith
      (trimStr ((("```json\n".data) ++ T) ++ ("\n```".data)))
      ("```json".data) = true := by
    rw [htrim]; rfl
  rw [cleanResponseText_json_branch _ hne hjson, htrim]
  congr 1
  rw [show ((((("```json\n".data) ++ T) ++ ("\n```".data))).drop 7) =
    '\n' :: (T ++ ("\n```".data)) from rfl]
  rw [List.dropWhile_cons_of_pos (by decide)]
  exact stripEndFence_dropped T

theorem cleanResponseText_wrapped_plain (T : Str) :
    cleanResponseText ((("```\n".data) ++ T) ++ ("\n```".data)) =
      .ok (trimStr T) := by
  have h1 : trimStart (("```\n".data) ++ (T ++ ("\n```".data))) =
      ("```\n".data) ++ (T ++ ("\n```".data)) :=
    trimStart_append_of_stable _ _ (by decide) (by decide)
  have h2 : trimEnd ((("```\n".data) ++ T) ++ ("\n```".data)) =
      (("```\n".data) ++ T) ++ ("\n```".data) :=
    trimEnd_append_of_stable _ _ (by decide) (by decide)
  have htrim : trimStr ((("```\n".data) ++ T) ++ ("\n```".data)) =
      (("```\n".data) ++ T) ++ ("\n```".data) := by
    unfold trimStr
    rw [List.append_assoc, h1, ← List.append_assoc, h2]
  have hne : (trimStr ((("```\n".data) ++ T) ++ ("\n```".data))).isEmpty
      = false := by
    rw [htrim]; rfl
  have hnotjson : strStartsWith
      (trimStr ((("```\n".data) ++ T) ++ ("\n```".data)))
      ("```json".data) = false := by
    rw [htrim]; rfl
  have hfence : strStartsWith
      (trimStr ((("```\n".data) ++ T) ++ ("\n```".data)))
      ("```".data) = true := by
    rw [htrim]; rfl
  rw [cleanResponseText_plain_branch _ hne hnotjson hfence, htrim]
  congr 1
  rw [show ((((("```\n".data) ++ T) ++ ("\n```".data))).drop 3) =
    '\n' :: (T ++ ("\n```".data)) from rfl]
  rw [List.dropWhile_cons_of_pos (by decide)]
  exact stripEndFence_dropped T

theorem parseAIResponse_of_clean (s c : Str)
    (h : cleanResponseText s = .ok c) :
    parseAIResponse s =
      (match jsonParse c with
       | some j => .ok j
       | none => .error ("AI did not return valid JSON".data)) := by
  unfold parseAIResponse
  rw [h]

theorem cleanResponseText_empty (s : Str) (he : trimStr s = []) :
    cleanResponseText s = .error ("AI returned an empty response".data) := by
  simp only [cleanResponseText]
  rw [show (trimStr s).isEmpty = true from by rw [he]; rfl]
  simp

/-- Claim C5 as amended: for every response text `T` whose trimmed form
does not itself begin with a code fence, parsing `T` wrapped in
` ```json ... ``` ` or ` ``` ... ``` ` markers yields the same result as
parsing bare `T`; in particular the wrapped `"items"` example parses
identically to the bare text.  Parsing fails with the fatal error when
the text is empty after trimming or the remaining text after stripping is
not syntactically valid JSON. -/
theorem c5_fence_strip_amended :
    (∀ T : Str, strStartsWith (trimStr T) ("```".data) = false →
      parseAIResponse ((("```json\n".data) ++ T) ++ ("\n```".data)) =
        parseAIResponse T ∧
      parseAIResponse ((("```\n".data) ++ T) ++ ("\n```".data)) =
        parseAIResponse T) ∧
    (parseAIResponse ((("```json\n".data) ++
        ("\x7b\"items\":[\x7b\"x\":\"1\"\x7d]\x7d".data)) ++ ("\n```".data)) =
      parseAIResponse ("\x7b\"items\":[\x7b\"x\":\"1\"\x7d]\x7d".data)) ∧
    (∀ s : Str, trimStr s = [] →
      parseAIResponse s = .error ("AI did not return valid JSON".data)) ∧
    (∀ s cleaned : Str, cleanResponseText s = .ok cleaned →
      jsonParse cleaned = none →
      parseAIResponse s = .error ("AI did not return valid JSON".data)) := by
  have hmain : ∀ T : Str, strStartsWith (trimStr T) ("```".data) = false →
      parseAIResponse ((("```json\n".data) ++ T) ++ ("\n```".data)) =
        parseAIResponse T ∧
      parseAIResponse ((("```\n".data) ++ T) ++ ("\n```".data)) =
        parseAIResponse T := by
    intro T hT
    by_cases he : trimStr T = []
    · have hw1 := cleanResponseText_wrapped_json T
      have hw2 := cleanResponseText_wrapped_plain T
      rw [he] at hw1 hw2
      have hbare : parseAIResponse T =
          .error ("AI did not return valid JSON".data) := by
        unfold parseAIResponse
        rw [cleanResponseText_empty T he]
      rw [parseAIResponse_of_clean _ _ hw1, parseAIResponse_of_clean _ _ hw2,
        hbare]
      exact ⟨rfl, rfl⟩
    · have hw1 := cleanResponseText_wrapped_json T
      have hw2 := cleanResponseText_wrapped_plain T
      have hb := cleanResponseText_bare T hT he
      rw [parseAIResponse_of_clean _ _ hw1, parseAIResponse_of_clean _ _ hw2,
        parseAIResponse_of_clean _ _ hb]
      exact ⟨rfl, rfl⟩
  refine ⟨hmain, ?_, ?_, ?_⟩
  · exact (hmain ("\x7b\"items\":[\x7b\"x\":\"1\"\x7d]\x7d".data)
      (by decide)).1
  · intro s he
    unfold parseAIResponse
    rw [cleanResponseText_empty s he]
  · intro s cleaned hs hj
    rw [parseAIResponse_of_clean _ _ hs, hj]

/-- Claim C5 witness: the amended theorem applied to the bare array text
`"[1, 2]"`, which does not start with a fence. -/
theorem c5_fence_strip_amended_witness :
    parseAIResponse ((("```json\n".data) ++ ("[1, 2]".data)) ++
      ("\n```".data)) = parseAIResponse ("[1, 2]".data) :=
  (c5_fence_strip_amended.1 ("[1, 2]".data) (by decide)).1
